import Mathlib

/-!
Verification of the geo/ASN CIDR allow-list tool (`src/main.rs`).

The development shallowly embeds the program's pure core:

* `process_and_grep` (src/main.rs:103-147): line parsing, country-code
  selection, per-code counting, and the full rewrite of the output artifact;
* the fetch/verify control flow of `main` (src/main.rs:54-98): the
  200 / 304 / other-status outcomes and the SHA-256 integrity gate;
* `process_asn_data` (src/main.rs:149-218): per-target fetching, blank-line
  trimming, per-target counts, and the append to the output artifact.

File contents are modelled as `String`s (`Option String` for a file that may
be missing) and byte strings as `List Nat` (one `Nat` per byte; ASCII
content, so `Char.toNat` is the byte view).  Network responses are explicit
inputs.  SHA-256 is implemented concretely (FIPS 180-4) so that the digest
comparison in `main` is executable.
-/

namespace GeoAcl

/-! ### String utilities mirroring the Rust standard library -/

/-- Split a character list at every character satisfying `p`, keeping empty
chunks — the semantics of Rust's `str::split` on a `char` pattern. -/
def splitOnPred (p : Char → Bool) (cs : List Char) : List (List Char) :=
  cs.foldr (fun c acc =>
    if p c then [] :: acc
    else match acc with
      | [] => [[c]]
      | g :: gs => (c :: g) :: gs) [[]]

/-- Rust `str::split_whitespace`: split on whitespace, dropping empty chunks. -/
def splitWs (s : String) : List String :=
  ((splitOnPred (fun c => c.isWhitespace) s.data).map String.mk).filter (fun t => t ≠ "")

/-- Drop one trailing carriage return, as Rust's `lines()` does per line. -/
def stripCR (s : String) : String :=
  if s.data.getLast? = some '\r' then String.mk s.data.dropLast else s

/-- Rust `str::lines` / `BufRead::lines`: split on `'\n'`, with no empty
trailing line when the text ends in a newline, stripping a final `'\r'`. -/
def rustLines (s : String) : List String :=
  let parts := (splitOnPred (fun c => c = '\n') s.data).map String.mk
  let parts := if parts.getLast? = some "" then parts.dropLast else parts
  parts.map stripCR

/-- Rust `str::trim`: drop whitespace from both ends. -/
def trimStr (s : String) : String :=
  String.mk (((s.data.dropWhile Char.isWhitespace).reverse.dropWhile
    Char.isWhitespace).reverse)

/-- Rust `str::to_uppercase` (ASCII range, which covers country codes). -/
def upperStr (s : String) : String :=
  String.mk (s.data.map Char.toUpper)

/-- Rust `Vec::join("\n")`: interpose a single newline, none at the end. -/
def joinLines : List String → String
  | [] => ""
  | [l] => l
  | l :: ls => l ++ "\n" ++ joinLines ls

/-- Byte view of a string (ASCII content: one byte per character). -/
def strBytes (s : String) : List Nat := s.data.map Char.toNat

/-! ### SHA-256 (FIPS 180-4), as computed by the `sha2` crate -/

/-- 2^32, the word modulus. -/
def w32 : Nat := 4294967296

/-- Rotate a 32-bit word right by `n`. -/
def rotr32 (n x : Nat) : Nat := ((x >>> n) ||| (x <<< (32 - n))) % w32

/-- Logical right shift. -/
def shr32 (n x : Nat) : Nat := x >>> n

/-- SHA-256 `Ch` function (the complement written as xor with the all-ones
32-bit word). -/
def ch32 (e fw g : Nat) : Nat := (e &&& fw) ^^^ ((e ^^^ 4294967295) &&& g)

/-- SHA-256 `Maj` function. -/
def maj32 (a b c : Nat) : Nat := (a &&& b) ^^^ (a &&& c) ^^^ (b &&& c)

/-- SHA-256 `Σ0`. -/
def bsig0 (x : Nat) : Nat := rotr32 2 x ^^^ rotr32 13 x ^^^ rotr32 22 x

/-- SHA-256 `Σ1`. -/
def bsig1 (x : Nat) : Nat := rotr32 6 x ^^^ rotr32 11 x ^^^ rotr32 25 x

/-- SHA-256 `σ0`. -/
def ssig0 (x : Nat) : Nat := rotr32 7 x ^^^ rotr32 18 x ^^^ shr32 3 x

/-- SHA-256 `σ1`. -/
def ssig1 (x : Nat) : Nat := rotr32 17 x ^^^ rotr32 19 x ^^^ shr32 10 x

/-- The 64 SHA-256 round constants, in decimal. -/
def sha256K : List Nat :=
  [1116352408, 1899447441, 3049323471, 3921009573, 961987163, 1508970993,
   2453635748, 2870763221, 3624381080, 310598401, 607225278, 1426881987,
   1925078388, 2162078206, 2614888103, 3248222580, 3835390401, 4022224774,
   264347078, 604807628, 770255983, 1249150122, 1555081692, 1996064986,
   2554220882, 2821834349, 2952996808, 3210313671, 3336571891, 3584528711,
   113926993, 338241895, 666307205, 773529912, 1294757372, 1396182291,
   1695183700, 1986661051, 2177026350, 2456956037, 2730485921, 2820302411,
   3259730800, 3345764771, 3516065817, 3600352804, 4094571909, 275423344,
   430227734, 506948616, 659060556, 883997877, 958139571, 1322822218,
   1537002063, 1747873779, 1955562222, 2024104815, 2227730452, 2361852424,
   2428436474, 2756734187, 3204031479, 3329325298]

/-- The eight 32-bit words of a SHA-256 chaining state. -/
structure Hash8 where
  a : Nat
  b : Nat
  c : Nat
  d : Nat
  e : Nat
  f : Nat
  g : Nat
  h : Nat
deriving DecidableEq

/-- SHA-256 initial hash value, in decimal. -/
def sha256H0 : Hash8 :=
  ⟨1779033703, 3144134277, 1013904242, 2773480762,
   1359893119, 2600822924, 528734635, 1541459225⟩

/-- Merkle–Damgård padding: `0x80`, zeros to 56 mod 64, 64-bit big-endian
bit length. -/
def padBytes (msg : List Nat) : List Nat :=
  let L := msg.length
  let k := (119 - L % 64) % 64
  let bitLen := 8 * L
  msg ++ [0x80] ++ List.replicate k 0 ++
    [(bitLen >>> 56) % 256, (bitLen >>> 48) % 256, (bitLen >>> 40) % 256, (bitLen >>> 32) % 256,
     (bitLen >>> 24) % 256, (bitLen >>> 16) % 256, (bitLen >>> 8) % 256, bitLen % 256]

/-- The sixteen big-endian words of the `i`-th 64-byte block. -/
def blockWords (padded : List Nat) (i : Nat) : List Nat :=
  (List.range 16).map (fun j =>
    let b0 := padded.getD (64 * i + 4 * j) 0
    let b1 := padded.getD (64 * i + 4 * j + 1) 0
    let b2 := padded.getD (64 * i + 4 * j + 2) 0
    let b3 := padded.getD (64 * i + 4 * j + 3) 0
    b0 <<< 24 ||| b1 <<< 16 ||| b2 <<< 8 ||| b3)

/-- Extend sixteen message words to the 64-entry message schedule. -/
def schedule (ws : List Nat) : List Nat :=
  (List.range 48).foldl (fun ws _ =>
    let t := ws.length
    let x := (ssig1 (ws.getD (t - 2) 0) + ws.getD (t - 7) 0 +
              ssig0 (ws.getD (t - 15) 0) + ws.getD (t - 16) 0) % w32
    ws ++ [x]) ws

/-- One SHA-256 round, fed a `(constant, scheduled word)` pair. -/
def round1 (st : Hash8) (kw : Nat × Nat) : Hash8 :=
  let t1 := (st.h + bsig1 st.e + ch32 st.e st.f st.g + kw.1 + kw.2) % w32
  let t2 := (bsig0 st.a + maj32 st.a st.b st.c) % w32
  ⟨(t1 + t2) % w32, st.a, st.b, st.c, (st.d + t1) % w32, st.e, st.f, st.g⟩

/-- Compress one block into the chaining state. -/
def compress (st : Hash8) (ws : List Nat) : Hash8 :=
  let fin := (sha256K.zip (schedule ws)).foldl round1 st
  ⟨(st.a + fin.a) % w32, (st.b + fin.b) % w32, (st.c + fin.c) % w32, (st.d + fin.d) % w32,
   (st.e + fin.e) % w32, (st.f + fin.f) % w32, (st.g + fin.g) % w32, (st.h + fin.h) % w32⟩

/-- SHA-256 of a byte sequence. -/
def sha256 (msg : List Nat) : Hash8 :=
  let padded := padBytes msg
  let nBlocks := padded.length / 64
  (List.range nBlocks).foldl (fun st i => compress st (blockWords padded i)) sha256H0

/-- Lowercase hexadecimal digit: `48 + n` lands in `'0'..'9'` and `87 + n`
in `'a'..'f'`. -/
def hexChar (n : Nat) : Char :=
  if n < 10 then Char.ofNat (48 + n) else Char.ofNat (87 + n)

/-- Eight lowercase hex characters of one 32-bit word, most significant
nibble first — Rust's `{:08x}` on a word. -/
def wordHex (x : Nat) : List Char :=
  (List.range 8).map (fun i => hexChar ((x >>> (4 * (7 - i))) % 16))

/-- The 64-character lowercase hex rendering of a digest — Rust's
`format!("{:x}", hasher.finalize())`. -/
def hashHex (st : Hash8) : String :=
  String.mk ([st.a, st.b, st.c, st.d, st.e, st.f, st.g, st.h].map wordHex).flatten

/-- `format!("{:x}", Sha256::digest(s))` for string content. -/
def sha256hex (s : String) : String := hashHex (sha256 (strBytes s))

/-! ### `process_and_grep` (src/main.rs:103-147) -/

/-- One loop iteration of `process_and_grep` on a line: the line yields a
`(cidr_block, country_code)` record when `split_whitespace` gives exactly two
columns, and the record is selected when
`country_codes.iter().any(|cc| cc == country_code)`. -/
def selected_record (country_codes : List String) (line : String) :
    Option (String × String) :=
  match splitWs line with
  | [cidr_block, country_code] =>
    if country_codes.any (fun cc => cc = country_code) then
      some (cidr_block, country_code)
    else none
  | _ => none

/-- All selected records of the feed, in source-encounter order. -/
def selected_records (content : String) (country_codes : List String) :
    List (String × String) :=
  (rustLines content).filterMap (selected_record country_codes)

/-- `filtered_lines` of `process_and_grep`: the CIDR column of each selected
record, in source-encounter order. -/
def filtered_lines (content : String) (country_codes : List String) : List String :=
  (selected_records content country_codes).map Prod.fst

/-- The tally `country_counts` keeps per code: the number of selected records
bearing that code (the `*entry += 1` accumulation). -/
def country_count (content : String) (country_codes : List String)
    (code : String) : Nat :=
  ((selected_records content country_codes).filter (fun r => r.2 = code)).length

/-- The summary `process_and_grep` reports: one entry per requested code, in
the requested order, with `country_counts.get(code).unwrap_or(&0)`. -/
def match_summary (content : String) (country_codes : List String) :
    List (String × Nat) :=
  country_codes.map (fun code => (code, country_count content country_codes code))

/-- The running `total` of the summary loop. -/
def summary_total (content : String) (country_codes : List String) : Nat :=
  (match_summary content country_codes).foldl (fun t e => t + e.2) 0

/-- `output_content = filtered_lines.join("\n")`, the full new contents
written to `okcidr.txt`. -/
def output_content (content : String) (country_codes : List String) : String :=
  joinLines (filtered_lines content country_codes)

/-! ### The fetch / verify control flow of `main` (src/main.rs:54-98) -/

/-- The network's answer to the primary-feed request: HTTP status, body (used
only on 200), and the text of the digest-companion endpoint. -/
structure FetchEnv where
  status : Nat
  body : String
  shaText : String
deriving DecidableEq

/-- The two files the program touches: the snapshot `haproxy_geo_ip.txt` and
the output artifact `okcidr.txt` (`none` = file missing). -/
structure FsState where
  snapshot : Option String
  output : Option String
deriving DecidableEq

/-- `sha256_content.split_whitespace().next().unwrap_or("")`. -/
def expected_hash (shaText : String) : String := (splitWs shaText).headD ""

/-- The `match response.status()` block of `main`: on 200 verify the digest
and persist the body as the new snapshot, on 304 read the snapshot, otherwise
abort.  `none` content = the run aborts with a non-zero outcome. -/
def resolveContent (env : FetchEnv) (fs : FsState) : FsState × Option String :=
  if env.status = 200 then
    if sha256hex env.body ≠ expected_hash env.shaText then (fs, none)
    else ({ fs with snapshot := some env.body }, some env.body)
  else if env.status = 304 then
    match fs.snapshot with
    | some content => (fs, some content)
    | none => (fs, none)
  else (fs, none)

/-- The primary pipeline of `main`: upper-case the caller's codes, resolve the
feed content, and have `process_and_grep` fully rewrite the output artifact.
The boolean is `true` iff the run did not abort. -/
def runMain (env : FetchEnv) (country_codes_arg : List String) (fs : FsState) :
    FsState × Bool :=
  let country_codes := country_codes_arg.map upperStr
  match resolveContent env fs with
  | (fs1, none) => (fs1, false)
  | (fs1, some content) =>
    ({ fs1 with output := some (output_content content country_codes) }, true)

/-! ### `process_asn_data` (src/main.rs:149-218) -/

/-- The outcome of one ASN-target request: a success-status response with
body text, a non-success HTTP status, or a request error. -/
inductive AsnResp where
  | ok (body : String)
  | httpErr
  | netErr
deriving DecidableEq

/-- One iteration of the per-target loop: on success push the non-empty
trimmed lines and record the raw line count; on failure only warn, leaving
the accumulator unchanged. -/
def asn_step (responses : String → AsnResp) (acc : List String × List (String × Nat))
    (asn : String) : List String × List (String × Nat) :=
  match responses asn with
  | .ok body =>
    let lines := rustLines body
    let count := lines.length
    let blocks := lines.filterMap (fun l =>
      let t := trimStr l
      if t ≠ "" then some t else none)
    (acc.1 ++ blocks, acc.2 ++ [(asn, count)])
  | _ => acc

/-- The `(all_asn_blocks, asn_counts)` pair accumulated over all targets. -/
def aggregate_asn (responses : String → AsnResp) (asn_numbers : List String) :
    List String × List (String × Nat) :=
  asn_numbers.foldl (asn_step responses) ([], [])

/-- Push one `'\n'` when the existing content is non-empty and lacks a
trailing one (`!existing_content.is_empty() && !existing_content.ends_with('\n')`). -/
def ensure_trailing_nl (existing_content : String) : String :=
  if existing_content ≠ "" ∧ existing_content.data.getLast? ≠ some '\n' then
    existing_content ++ "\n"
  else existing_content

/-- The append of `process_asn_data`: read the artifact (missing file =
empty), normalise its tail, then append `all_asn_blocks.join("\n")`. -/
def append_blocks (existing : Option String) (all_asn_blocks : List String) : String :=
  ensure_trailing_nl (existing.getD "") ++ joinLines all_asn_blocks

/-- `process_asn_data`'s effect on the file system: the artifact is rewritten
with the appended blocks only when some block was collected. -/
def process_asn_data (responses : String → AsnResp) (asn_numbers : List String)
    (fs : FsState) : FsState :=
  let agg := aggregate_asn responses asn_numbers
  if agg.1 ≠ [] then { fs with output := some (append_blocks fs.output agg.1) }
  else fs

/-- The whole of `main`: the primary pipeline, then — when ASN numbers were
supplied — the ASN merge.  `process_asn_data` never fails in this model (its
per-target errors are contained), so the run's outcome is the primary one. -/
def runAll (env : FetchEnv) (country_codes_arg : List String)
    (asn_numbers : List String) (responses : String → AsnResp)
    (fs : FsState) : FsState × Bool :=
  match runMain env country_codes_arg fs with
  | (fs1, false) => (fs1, false)
  | (fs1, true) =>
    if asn_numbers ≠ [] then (process_asn_data responses asn_numbers fs1, true)
    else (fs1, true)

/-- A concrete response assignment for ASN targets, used to instantiate
theorems at a run where target `64496` answers and every other target's
request fails. -/
def respW : String → AsnResp :=
  fun a => if a = "64496" then AsnResp.ok "203.0.113.0/24" else AsnResp.netErr

/-! ### Spec-side restatement of the filter (for the refinement claim) -/

/-- Following the spec's words: a line is selected when splitting it on
whitespace yields exactly two columns and the second column is a member of
the country-code set. -/
def spec_is_selected (codes : List String) (line : String) : Bool :=
  match splitWs line with
  | [_, cc] => decide (cc ∈ codes)
  | _ => false

/-- Following the spec's words: the emitted lines are the first columns of
the selected lines, in source-encounter order. -/
def spec_selected_cidrs (content : String) (codes : List String) : List String :=
  ((rustLines content).filter (spec_is_selected codes)).map
    (fun l => (splitWs l).headD "")

/-! ### Helper lemmas -/

theorem sha256hex_length (s : String) : (sha256hex s).length = 64 := by
  simp [sha256hex, hashHex, String.length, wordHex]

theorem sha256hex_ne_empty (s : String) : sha256hex s ≠ "" := by
  intro h
  have h64 := sha256hex_length s
  rw [h] at h64
  simp [String.length] at h64

theorem toNat_ofNat_valid {n : Nat} (h : n.isValidChar) : (Char.ofNat n).toNat = n := by
  simp [Char.ofNat, dif_pos h]
  rfl

theorem char_toUpper_idem (c : Char) : Char.toUpper (Char.toUpper c) = Char.toUpper c := by
  simp only [Char.toUpper]
  by_cases h : c.toNat ≥ 97 ∧ c.toNat ≤ 122
  · rw [if_pos h]
    have hv : (c.toNat - 32).isValidChar := by
      left
      omega
    rw [toNat_ofNat_valid hv]
    rw [if_neg (by omega)]
  · rw [if_neg h, if_neg h]

theorem upperStr_idem (s : String) : upperStr (upperStr s) = upperStr s := by
  unfold upperStr
  rw [List.map_map]
  congr 1
  exact List.map_congr_left (fun c _ => char_toUpper_idem c)

theorem map_upperStr_idem (ccs : List String) :
    (ccs.map upperStr).map upperStr = ccs.map upperStr := by
  rw [List.map_map]
  exact List.map_congr_left (fun s _ => upperStr_idem s)

theorem any_eq_mem (codes : List String) (x : String) :
    (codes.any (fun cc => cc = x)) = decide (x ∈ codes) := by
  by_cases h : x ∈ codes
  · simp only [h, decide_True]
    rw [List.any_eq_true]
    exact ⟨x, h, by simp⟩
  · simp only [h, decide_False]
    rw [List.any_eq_false]
    intro a ha
    simp only [decide_eq_true_eq]
    intro hax
    exact h (hax ▸ ha)

theorem selected_record_mem {codes : List String} {line : String}
    {r : String × String} (h : selected_record codes line = some r) :
    r.2 ∈ codes := by
  unfold selected_record at h
  split at h
  · split at h
    · rename_i cidr cc hcols hany
      cases h
      rw [List.any_eq_true] at hany
      obtain ⟨a, ha, hp⟩ := hany
      rw [decide_eq_true_eq] at hp
      exact hp ▸ ha
    · exact Option.noConfusion h
  · exact Option.noConfusion h

theorem filtered_eq_spec_go (codes : List String) (ls : List String) :
    (ls.filterMap (selected_record codes)).map Prod.fst
      = (ls.filter (spec_is_selected codes)).map (fun l => (splitWs l).headD "") := by
  induction ls with
  | nil => rfl
  | cons l ls ih =>
    rcases hcols : splitWs l with _ | ⟨a, _ | ⟨b, _ | ⟨c, rest⟩⟩⟩
    · simp [List.filterMap_cons, List.filter_cons, selected_record, spec_is_selected,
        hcols, ih]
    · simp [List.filterMap_cons, List.filter_cons, selected_record, spec_is_selected,
        hcols, ih]
    · by_cases hb : b ∈ codes
      · simp [List.filterMap_cons, List.filter_cons, selected_record, spec_is_selected,
          hcols, any_eq_mem, hb, ih]
      · simp [List.filterMap_cons, List.filter_cons, selected_record, spec_is_selected,
          hcols, any_eq_mem, hb, ih]
    · simp [List.filterMap_cons, List.filter_cons, selected_record, spec_is_selected,
        hcols, ih]

theorem filtered_lines_eq_spec (content : String) (codes : List String) :
    filtered_lines content codes = spec_selected_cidrs content codes := by
  unfold filtered_lines selected_records spec_selected_cidrs
  exact filtered_eq_spec_go codes (rustLines content)

theorem filter_length_add {α : Type} (p q : α → Bool)
    (h : ∀ x, ¬(p x = true ∧ q x = true)) (l : List α) :
    (l.filter p).length + (l.filter q).length
      = (l.filter (fun x => p x || q x)).length := by
  induction l with
  | nil => rfl
  | cons a l ih =>
    by_cases hp : p a = true <;> by_cases hq : q a = true
    · exact absurd ⟨hp, hq⟩ (h a)
    · simp only [List.filter_cons, hp, hq, Bool.true_or, if_pos, if_neg,
        Bool.false_eq_true, if_false, ite_true, List.length_cons]
      omega
    · simp only [List.filter_cons, hp, hq, Bool.or_true, Bool.false_eq_true,
        if_false, ite_true, List.length_cons]
      omega
    · simp only [List.filter_cons, hp, hq, Bool.or_self, Bool.false_eq_true,
        if_false, Bool.false_or]
      exact ih

theorem counts_sum_eq (recs : List (String × String)) (codes : List String)
    (hnd : codes.Nodup) :
    (codes.map (fun c => (recs.filter (fun r => r.2 = c)).length)).sum
      = (recs.filter (fun r => decide (r.2 ∈ codes))).length := by
  induction codes with
  | nil => simp
  | cons c cs ih =>
    obtain ⟨hc, hcs⟩ := List.nodup_cons.mp hnd
    simp only [List.map_cons, List.sum_cons, ih hcs]
    rw [filter_length_add]
    · congr 1
      apply List.filter_congr
      intro r _
      simp [List.mem_cons]
    · intro r hr
      obtain ⟨h1, h2⟩ := hr
      rw [decide_eq_true_eq] at h1 h2
      exact hc (h1 ▸ h2)

theorem foldl_add_snd (l : List (String × Nat)) :
    ∀ init : Nat, l.foldl (fun t e => t + e.2) init = init + (l.map Prod.snd).sum := by
  induction l with
  | nil => intro init; simp
  | cons e l ih =>
    intro init
    simp only [List.foldl_cons, List.map_cons, List.sum_cons, ih]
    omega

theorem selected_records_codes (content : String) (codes : List String) :
    ∀ r ∈ selected_records content codes, r.2 ∈ codes := by
  intro r hr
  obtain ⟨line, _, hline⟩ := List.mem_filterMap.mp hr
  exact selected_record_mem hline

theorem summary_total_eq (content : String) (codes : List String)
    (hnd : codes.Nodup) :
    summary_total content codes = (filtered_lines content codes).length := by
  unfold summary_total
  rw [foldl_add_snd, Nat.zero_add]
  unfold match_summary
  rw [List.map_map]
  have hmap : (List.map (Prod.snd ∘ fun code => (code, country_count content codes code)) codes)
      = codes.map (fun c => country_count content codes c) := rfl
  rw [hmap]
  unfold country_count
  rw [counts_sum_eq _ _ hnd]
  rw [List.filter_eq_self.mpr (fun r hr => by
    simpa using selected_records_codes content codes r hr)]
  unfold filtered_lines
  rw [List.length_map]

/-! #### String-append and `joinLines` lemmas -/

theorem str_append_assoc (a b c : String) : a ++ b ++ c = a ++ (b ++ c) := by
  apply String.ext
  simp [String.data_append, List.append_assoc]

theorem last_mem {l : List Char} {c : Char} (h : l.getLast? = some c) : c ∈ l := by
  obtain ⟨hne, heq⟩ := List.mem_getLast?_eq_getLast (show c ∈ l.getLast? from h)
  rw [heq]
  exact List.getLast_mem hne

theorem str_ne_empty_data {s : String} (h : s ≠ "") : s.data ≠ [] := by
  intro hd
  exact h (String.ext hd)

theorem joinLines_cons_cons (l l' : String) (ls : List String) :
    joinLines (l :: l' :: ls) = l ++ "\n" ++ joinLines (l' :: ls) := rfl

theorem joinLines_data_ne_nil (l : String) (ls : List String) (hl : l ≠ "") :
    (joinLines (l :: ls)).data ≠ [] := by
  cases ls with
  | nil => exact str_ne_empty_data hl
  | cons l' ls' =>
    rw [joinLines_cons_cons, String.data_append, String.data_append]
    intro hd
    rcases List.append_eq_nil.mp hd with ⟨hd1, _⟩
    rcases List.append_eq_nil.mp hd1 with ⟨hd2, _⟩
    exact str_ne_empty_data hl hd2

theorem joinLines_last_not_nl (ls : List String)
    (hl : ∀ l ∈ ls, l ≠ "" ∧ '\n' ∉ l.data) (hne : ls ≠ []) :
    (joinLines ls).data.getLast? ≠ some '\n' := by
  induction ls with
  | nil => exact absurd rfl hne
  | cons l ls ih =>
    cases ls with
    | nil =>
      obtain ⟨hlne, hnl⟩ := hl l (by simp)
      intro hlast
      exact hnl (last_mem hlast)
    | cons l' ls' =>
      have hl' : ∀ x ∈ l' :: ls', x ≠ "" ∧ '\n' ∉ x.data :=
        fun x hx => hl x (by simp [hx])
      have hjoin := joinLines_data_ne_nil l' ls' (hl' l' (by simp)).1
      rw [joinLines_cons_cons, String.data_append,
        List.getLast?_append_of_ne_nil _ hjoin]
      exact ih hl' (by simp)

/-! #### Case lemmas for the fetch control flow -/

theorem resolveContent_200_ok {env : FetchEnv} (fs : FsState)
    (h200 : env.status = 200)
    (hok : sha256hex env.body = expected_hash env.shaText) :
    resolveContent env fs = ({ fs with snapshot := some env.body }, some env.body) := by
  simp [resolveContent, h200, hok]

theorem resolveContent_200_bad {env : FetchEnv} (fs : FsState)
    (h200 : env.status = 200)
    (hbad : sha256hex env.body ≠ expected_hash env.shaText) :
    resolveContent env fs = (fs, none) := by
  simp [resolveContent, h200, hbad]

theorem resolveContent_304 {env : FetchEnv} {fs : FsState} {snap : String}
    (h304 : env.status = 304) (hsnap : fs.snapshot = some snap) :
    resolveContent env fs = (fs, some snap) := by
  simp [resolveContent, h304, hsnap]

theorem resolveContent_304_missing {env : FetchEnv} {fs : FsState}
    (h304 : env.status = 304) (hsnap : fs.snapshot = none) :
    resolveContent env fs = (fs, none) := by
  simp [resolveContent, h304, hsnap]

theorem resolveContent_other {env : FetchEnv} (fs : FsState)
    (h200 : env.status ≠ 200) (h304 : env.status ≠ 304) :
    resolveContent env fs = (fs, none) := by
  simp [resolveContent, h200, h304]

theorem runMain_of_resolve_none {env : FetchEnv} {ccs : List String}
    {fs fs1 : FsState} (h : resolveContent env fs = (fs1, none)) :
    runMain env ccs fs = (fs1, false) := by
  unfold runMain
  rw [h]

theorem runMain_of_resolve_some {env : FetchEnv} {ccs : List String}
    {fs fs1 : FsState} {content : String}
    (h : resolveContent env fs = (fs1, some content)) :
    runMain env ccs fs
      = ({ fs1 with output := some (output_content content (ccs.map upperStr)) }, true) := by
  unfold runMain
  rw [h]

/-! #### ASN aggregation lemmas -/

theorem asn_step_fail {responses : String → AsnResp} {t : String}
    (hf : responses t = AsnResp.httpErr ∨ responses t = AsnResp.netErr)
    (acc : List String × List (String × Nat)) :
    asn_step responses acc t = acc := by
  rcases hf with h | h <;> simp [asn_step, h]

theorem aggregate_skip_fail_go {responses : String → AsnResp} {t : String}
    (hf : responses t = AsnResp.httpErr ∨ responses t = AsnResp.netErr) :
    ∀ (asns : List String) (acc : List String × List (String × Nat)),
    asns.foldl (asn_step responses) acc
      = (asns.filter (fun a => a ≠ t)).foldl (asn_step responses) acc := by
  intro asns
  induction asns with
  | nil => intro acc; rfl
  | cons a asns ih =>
    intro acc
    by_cases ha : a = t
    · subst ha
      simp only [List.foldl_cons, List.filter_cons, asn_step_fail hf]
      rw [if_neg (by simp)]
      exact ih acc
    · simp only [List.foldl_cons, List.filter_cons]
      rw [if_pos (by simp [ha])]
      simp only [List.foldl_cons]
      exact ih (asn_step responses acc a)

theorem aggregate_keys_go {responses : String → AsnResp} {t : String}
    (hf : responses t = AsnResp.httpErr ∨ responses t = AsnResp.netErr) :
    ∀ (asns : List String) (acc : List String × List (String × Nat)),
    (∀ cnt, (t, cnt) ∉ acc.2) →
    ∀ cnt, (t, cnt) ∉ (asns.foldl (asn_step responses) acc).2 := by
  intro asns
  induction asns with
  | nil => intro acc h; exact h
  | cons a asns ih =>
    intro acc h
    apply ih
    intro cnt hmem
    rcases hr : responses a with body | _ | _
    · simp only [asn_step, hr] at hmem
      rcases List.mem_append.mp hmem with hin | hone
      · exact h cnt hin
      · have hta : t = a := (Prod.mk.injEq _ _ _ _).mp (List.mem_singleton.mp hone) |>.1
        rw [hta] at hf
        rcases hf with hbad | hbad <;> rw [hr] at hbad <;> exact AsnResp.noConfusion hbad
    · simp only [asn_step, hr] at hmem
      exact h cnt hmem
    · simp only [asn_step, hr] at hmem
      exact h cnt hmem

theorem runAll_outcome (env : FetchEnv) (ccs asns : List String)
    (responses : String → AsnResp) (fs : FsState) :
    (runAll env ccs asns responses fs).2 = (runMain env ccs fs).2 := by
  unfold runAll
  rcases h : runMain env ccs fs with ⟨fs1, b⟩
  cases b
  · rfl
  · by_cases ha : asns ≠ [] <;> simp [ha]

theorem filterMap_trim_go (ls : List String) :
    ls.filterMap (fun l => if trimStr l = "" then none else some (trimStr l))
      = (ls.map trimStr).filter (fun t => t ≠ "") := by
  induction ls with
  | nil => rfl
  | cons l ls ih =>
    by_cases h : trimStr l = ""
    · simp [List.filterMap_cons, List.filter_cons, h, ih]
    · simp [List.filterMap_cons, List.filter_cons, h, ih]

theorem filterMap_trim (ls : List String) :
    ls.filterMap (fun l =>
        let t := trimStr l
        if t ≠ "" then some t else none)
      = (ls.map trimStr).filter (fun t => t ≠ "") := by
  have hf : (fun l =>
        let t := trimStr l
        if t ≠ "" then some t else none)
      = (fun l => if trimStr l = "" then none else some (trimStr l)) := by
    funext x
    by_cases h : trimStr x = "" <;> simp [h]
  rw [hf]
  exact filterMap_trim_go ls

theorem selected_record_mem_congr (codes1 codes2 : List String)
    (hmem : ∀ c, c ∈ codes1 ↔ c ∈ codes2) (line : String) :
    selected_record codes1 line = selected_record codes2 line := by
  rcases hcols : splitWs line with _ | ⟨a, _ | ⟨b, _ | ⟨c, rest⟩⟩⟩ <;>
    simp only [selected_record, hcols]
  simp [any_eq_mem, hmem b]

/-! ### The claims -/

/-- C1: the filter step turns a line into a record only when it has exactly
two whitespace-separated columns, selects a record exactly when its second
column is a member of the upper-cased code set, emits the selected first
columns in source-encounter order, and writes exactly those lines, joined by
newlines, as the full new contents of the output artifact. -/
theorem c1_filter_step (env : FetchEnv) (ccs : List String) (fs fs1 : FsState)
    (content : String) (h : resolveContent env fs = (fs1, some content)) :
    runMain env ccs fs
      = ({ fs1 with
            output := some (joinLines
              (spec_selected_cidrs content (ccs.map upperStr))) }, true) := by
  rw [runMain_of_resolve_some h]
  rw [output_content, filtered_lines_eq_spec]

/-- Witness for C1: a 304 run over the spec's example feed. -/
theorem c1_filter_step_witness :
    runMain ⟨304, "", ""⟩ ["dk"]
        ⟨some "10.0.0.0/8 DK\n192.168.0.0/16 SE\n203.0.113.0/24 DK", none⟩
      = ({ snapshot := some "10.0.0.0/8 DK\n192.168.0.0/16 SE\n203.0.113.0/24 DK",
           output := some (joinLines (spec_selected_cidrs
             "10.0.0.0/8 DK\n192.168.0.0/16 SE\n203.0.113.0/24 DK"
             (["dk"].map upperStr))) }, true) :=
  c1_filter_step ⟨304, "", ""⟩ ["dk"]
    ⟨some "10.0.0.0/8 DK\n192.168.0.0/16 SE\n203.0.113.0/24 DK", none⟩
    ⟨some "10.0.0.0/8 DK\n192.168.0.0/16 SE\n203.0.113.0/24 DK", none⟩
    "10.0.0.0/8 DK\n192.168.0.0/16 SE\n203.0.113.0/24 DK" (by decide)

/-- C2: a downloaded body whose SHA-256 digest differs from the expected
token aborts the run before any write — the snapshot keeps its prior content
and the output artifact is untouched — and the snapshot is only ever
overwritten with bytes whose digest passed the comparison. -/
theorem c2_integrity_gate :
    (∀ (env : FetchEnv) (ccs : List String) (fs : FsState),
      env.status = 200 →
      sha256hex env.body ≠ expected_hash env.shaText →
      runMain env ccs fs = (fs, false))
    ∧ (∀ (env : FetchEnv) (ccs : List String) (fs : FsState),
      (runMain env ccs fs).1.snapshot ≠ fs.snapshot →
      env.status = 200 ∧ sha256hex env.body = expected_hash env.shaText ∧
        (runMain env ccs fs).1.snapshot = some env.body) := by
  constructor
  · intro env ccs fs h200 hbad
    exact runMain_of_resolve_none (resolveContent_200_bad fs h200 hbad)
  · intro env ccs fs hch
    by_cases h200 : env.status = 200
    · by_cases hok : sha256hex env.body = expected_hash env.shaText
      · refine ⟨h200, hok, ?_⟩
        rw [runMain_of_resolve_some (resolveContent_200_ok fs h200 hok)]
      · rw [runMain_of_resolve_none (resolveContent_200_bad fs h200 hok)] at hch
        exact absurd rfl hch
    · by_cases h304 : env.status = 304
      · cases hsnap : fs.snapshot with
        | none =>
          rw [runMain_of_resolve_none (resolveContent_304_missing h304 hsnap)] at hch
          exact absurd rfl hch
        | some snap =>
          rw [runMain_of_resolve_some (resolveContent_304 h304 hsnap)] at hch
          exact absurd rfl hch
      · rw [runMain_of_resolve_none (resolveContent_other fs h200 h304)] at hch
        exact absurd rfl hch

/-- Witness for C2: a 200 response whose body does not hash to the expected
token leaves both files untouched and fails. -/
theorem c2_integrity_gate_witness :
    runMain ⟨200, "corrupt", "deadbeef"⟩ ["dk"]
        ⟨some "old snapshot", some "old output"⟩
      = (⟨some "old snapshot", some "old output"⟩, false) :=
  c2_integrity_gate.1 ⟨200, "corrupt", "deadbeef"⟩ ["dk"]
    ⟨some "old snapshot", some "old output"⟩ rfl (by decide)

/-- C3: for a duplicate-free requested code list, the summary has exactly one
entry per requested code in order (zero-count codes included, never omitted),
and the per-code counts sum to the number of CIDR lines the filter writes. -/
theorem c3_summary_counts (content : String) (codes : List String)
    (hnd : codes.Nodup) :
    (match_summary content codes).map Prod.fst = codes
    ∧ (∀ code ∈ codes,
        (code, country_count content codes code) ∈ match_summary content codes)
    ∧ summary_total content codes = (filtered_lines content codes).length := by
  refine ⟨?_, ?_, summary_total_eq content codes hnd⟩
  · unfold match_summary
    rw [List.map_map]
    exact List.map_id codes
  · intro code hc
    unfold match_summary
    exact List.mem_map.mpr ⟨code, hc, rfl⟩

/-- Witness for C3: the spec's `{DK, NO}` scenario. -/
theorem c3_summary_counts_witness :
    (match_summary "10.0.0.0/8 DK\n192.168.0.0/16 SE\n203.0.113.0/24 DK"
        ["DK", "NO"]).map Prod.fst = ["DK", "NO"]
    ∧ (∀ code ∈ ["DK", "NO"],
        (code, country_count "10.0.0.0/8 DK\n192.168.0.0/16 SE\n203.0.113.0/24 DK"
          ["DK", "NO"] code)
          ∈ match_summary "10.0.0.0/8 DK\n192.168.0.0/16 SE\n203.0.113.0/24 DK"
              ["DK", "NO"])
    ∧ summary_total "10.0.0.0/8 DK\n192.168.0.0/16 SE\n203.0.113.0/24 DK" ["DK", "NO"]
      = (filtered_lines "10.0.0.0/8 DK\n192.168.0.0/16 SE\n203.0.113.0/24 DK"
          ["DK", "NO"]).length :=
  c3_summary_counts "10.0.0.0/8 DK\n192.168.0.0/16 SE\n203.0.113.0/24 DK"
    ["DK", "NO"] (by decide)

/-- C4: the primary fetch has exactly three outcomes — 200 with a verified
digest persists the body as the new snapshot and uses it as the content, 200
with a failed digest aborts without writes, 304 uses exactly the existing
snapshot bytes (and aborts when the snapshot is missing), and any other
status aborts with neither file written. -/
theorem c4_fetch_outcomes (env : FetchEnv) (ccs : List String) (fs : FsState) :
    (env.status = 200 → sha256hex env.body = expected_hash env.shaText →
      runMain env ccs fs
        = ({ snapshot := some env.body,
             output := some (output_content env.body (ccs.map upperStr)) }, true))
    ∧ (env.status = 200 → sha256hex env.body ≠ expected_hash env.shaText →
      runMain env ccs fs = (fs, false))
    ∧ (env.status = 304 → ∀ snap, fs.snapshot = some snap →
      runMain env ccs fs
        = ({ fs with output := some (output_content snap (ccs.map upperStr)) }, true))
    ∧ (env.status = 304 → fs.snapshot = none → runMain env ccs fs = (fs, false))
    ∧ (env.status ≠ 200 → env.status ≠ 304 → runMain env ccs fs = (fs, false)) := by
  refine ⟨?_, ?_, ?_, ?_, ?_⟩
  · intro h200 hok
    rw [runMain_of_resolve_some (resolveContent_200_ok fs h200 hok)]
  · intro h200 hbad
    exact runMain_of_resolve_none (resolveContent_200_bad fs h200 hbad)
  · intro h304 snap hsnap
    rw [runMain_of_resolve_some (resolveContent_304 h304 hsnap)]
  · intro h304 hsnap
    exact runMain_of_resolve_none (resolveContent_304_missing h304 hsnap)
  · intro h200 h304
    exact runMain_of_resolve_none (resolveContent_other fs h200 h304)

/-- Witness for C4: one instance of each of the three outcomes (a verified
200, a 304 served from the snapshot, and a 500). -/
theorem c4_fetch_outcomes_witness :
    runMain ⟨200, "abc",
        "ba7816bf8f01cfea414140de5dae2223b00361a396177a9cb410ff61f20015ad  feed.txt"⟩
        ["dk"] ⟨none, none⟩
      = ({ snapshot := some "abc",
           output := some (output_content "abc" (["dk"].map upperStr)) }, true)
    ∧ runMain ⟨304, "", ""⟩ ["dk"] ⟨some "10.0.0.0/8 DK", none⟩
      = ({ snapshot := some "10.0.0.0/8 DK",
           output := some (output_content "10.0.0.0/8 DK" (["dk"].map upperStr)) }, true)
    ∧ runMain ⟨500, "", ""⟩ ["dk"] ⟨some "s", some "o"⟩ = (⟨some "s", some "o"⟩, false) :=
  ⟨(c4_fetch_outcomes ⟨200, "abc",
      "ba7816bf8f01cfea414140de5dae2223b00361a396177a9cb410ff61f20015ad  feed.txt"⟩
      ["dk"] ⟨none, none⟩).1 rfl (by decide),
   (c4_fetch_outcomes ⟨304, "", ""⟩ ["dk"] ⟨some "10.0.0.0/8 DK", none⟩).2.2.1
      rfl "10.0.0.0/8 DK" rfl,
   (c4_fetch_outcomes ⟨500, "", ""⟩ ["dk"] ⟨some "s", some "o"⟩).2.2.2.2
      (by decide) (by decide)⟩

/-- C5: a failing ASN target (request error or non-success status) is
non-fatal — it contributes nothing to the aggregated lines, its occurrences
drop out entirely, it never appears in the count report, and the run's
outcome is whatever the primary pipeline produced. -/
theorem c5_asn_failure_isolated (responses : String → AsnResp)
    (asns : List String) (t : String)
    (hf : responses t = AsnResp.httpErr ∨ responses t = AsnResp.netErr) :
    aggregate_asn responses asns
      = aggregate_asn responses (asns.filter (fun a => a ≠ t))
    ∧ (∀ cnt, (t, cnt) ∉ (aggregate_asn responses asns).2)
    ∧ (∀ (env : FetchEnv) (ccs : List String) (fs : FsState),
        (runAll env ccs asns responses fs).2 = (runMain env ccs fs).2) := by
  refine ⟨?_, ?_, ?_⟩
  · unfold aggregate_asn
    exact aggregate_skip_fail_go hf asns ([], [])
  · exact aggregate_keys_go hf asns ([], []) (by intro cnt; simp)
  · intro env ccs fs
    exact runAll_outcome env ccs asns responses fs

/-- Witness for C5: target `64511` errors while `64496` succeeds. -/
theorem c5_asn_failure_isolated_witness :
    aggregate_asn respW ["64496", "64511"]
      = aggregate_asn respW (["64496", "64511"].filter (fun a => a ≠ "64511"))
    ∧ ("64511", 1) ∉ (aggregate_asn respW ["64496", "64511"]).2
    ∧ (runAll ⟨500, "", ""⟩ ["dk"] ["64496", "64511"] respW ⟨none, none⟩).2
      = (runMain ⟨500, "", ""⟩ ["dk"] ⟨none, none⟩).2 :=
  ⟨(c5_asn_failure_isolated respW ["64496", "64511"] "64511" (Or.inr (by decide))).1,
   (c5_asn_failure_isolated respW ["64496", "64511"] "64511" (Or.inr (by decide))).2.1 1,
   (c5_asn_failure_isolated respW ["64496", "64511"] "64511" (Or.inr (by decide))).2.2
     ⟨500, "", ""⟩ ["dk"] ⟨none, none⟩⟩

/-- C6: appending a non-empty list of ASN lines reads the artifact (missing
file = empty), inserts exactly one separator when the non-empty prior
content lacks a trailing one and none when it already ends in one, appends
the lines joined by single separators with no separator after the last line,
and keeps the prior content as an unmodified leading segment. -/
theorem c6_append_semantics (existing : Option String) (ls : List String)
    (hne : ls ≠ []) :
    append_blocks none ls = append_blocks (some "") ls
    ∧ (existing.getD "" = "" → append_blocks existing ls = joinLines ls)
    ∧ (existing.getD "" ≠ "" → (existing.getD "").data.getLast? ≠ some '\n' →
        append_blocks existing ls = existing.getD "" ++ "\n" ++ joinLines ls)
    ∧ ((existing.getD "").data.getLast? = some '\n' →
        append_blocks existing ls = existing.getD "" ++ joinLines ls)
    ∧ (∃ rest, append_blocks existing ls = existing.getD "" ++ rest)
    ∧ ((∀ l ∈ ls, l ≠ "" ∧ '\n' ∉ l.data) →
        (append_blocks existing ls).data.getLast? ≠ some '\n') := by
  refine ⟨rfl, ?_, ?_, ?_, ?_, ?_⟩
  · intro hp
    unfold append_blocks ensure_trailing_nl
    rw [hp]
    simp only [ne_eq, not_true_eq_false, false_and, if_false]
    apply String.ext
    rw [String.data_append]
    rfl
  · intro hp hnl
    unfold append_blocks ensure_trailing_nl
    rw [if_pos ⟨hp, hnl⟩]
  · intro hnl
    unfold append_blocks ensure_trailing_nl
    rw [if_neg (by intro hc; exact hc.2 hnl)]
  · unfold append_blocks ensure_trailing_nl
    by_cases hc : existing.getD "" ≠ "" ∧ (existing.getD "").data.getLast? ≠ some '\n'
    · rw [if_pos hc]
      exact ⟨"\n" ++ joinLines ls, str_append_assoc _ _ _⟩
    · rw [if_neg hc]
      exact ⟨joinLines ls, rfl⟩
  · intro hl
    cases ls with
    | nil => exact absurd rfl hne
    | cons l ls' =>
      unfold append_blocks
      rw [String.data_append,
        List.getLast?_append_of_ne_nil _ (joinLines_data_ne_nil l ls' (hl l (by simp)).1)]
      exact joinLines_last_not_nl (l :: ls') hl (by simp)

/-- Witness for C6: appending two lines to content lacking a trailing
newline inserts exactly one separator and leaves no trailing one. -/
theorem c6_append_semantics_witness :
    append_blocks (some "10.0.0.0/8\n203.0.113.0/24") ["198.51.100.0/24", "192.0.2.0/24"]
      = "10.0.0.0/8\n203.0.113.0/24" ++ "\n" ++ joinLines ["198.51.100.0/24", "192.0.2.0/24"]
    ∧ (append_blocks (some "10.0.0.0/8\n203.0.113.0/24")
        ["198.51.100.0/24", "192.0.2.0/24"]).data.getLast? ≠ some '\n' :=
  ⟨(c6_append_semantics (some "10.0.0.0/8\n203.0.113.0/24")
      ["198.51.100.0/24", "192.0.2.0/24"] (by decide)).2.2.1 (by decide) (by decide),
   (c6_append_semantics (some "10.0.0.0/8\n203.0.113.0/24")
      ["198.51.100.0/24", "192.0.2.0/24"] (by decide)).2.2.2.2.2 (by decide)⟩

/-- C7: a successfully fetched ASN body contributes exactly its non-empty
trimmed lines to the aggregate, while its recorded count is the raw number
of source lines, blank lines included. -/
theorem c7_asn_lines_vs_count (responses : String → AsnResp)
    (asn : String) (body : String) (hok : responses asn = AsnResp.ok body) :
    (aggregate_asn responses [asn]).1
      = ((rustLines body).map trimStr).filter (fun t => t ≠ "")
    ∧ (aggregate_asn responses [asn]).2 = [(asn, (rustLines body).length)] := by
  unfold aggregate_asn
  simp only [List.foldl_cons, List.foldl_nil]
  unfold asn_step
  rw [hok]
  constructor
  · simp only [List.nil_append]
    exact filterMap_trim (rustLines body)
  · rfl

/-- Witness for C7: the spec's scenario — a body with a blank middle line
yields two lines but a recorded count of 3. -/
theorem c7_asn_lines_vs_count_witness :
    (aggregate_asn (fun _ => AsnResp.ok "1.2.3.0/24\n\n4.5.6.0/22") ["1234"]).1
      = ["1.2.3.0/24", "4.5.6.0/22"]
    ∧ (aggregate_asn (fun _ => AsnResp.ok "1.2.3.0/24\n\n4.5.6.0/22") ["1234"]).2
      = [("1234", 3)] :=
  ⟨((c7_asn_lines_vs_count (fun _ => AsnResp.ok "1.2.3.0/24\n\n4.5.6.0/22")
      "1234" "1.2.3.0/24\n\n4.5.6.0/22" rfl).1).trans (by decide),
   ((c7_asn_lines_vs_count (fun _ => AsnResp.ok "1.2.3.0/24\n\n4.5.6.0/22")
      "1234" "1.2.3.0/24\n\n4.5.6.0/22" rfl).2).trans (by decide)⟩

/-- C8: the pipeline's result is unchanged when the caller's code list is
replaced by its upper-cased form (case-insensitivity is applied exactly once
at the boundary): the run, the filter output, and the summary all coincide;
and the comparison against a line's country-code column is exact
whole-string membership. -/
theorem c8_uppercase_once_exact_match :
    (∀ (env : FetchEnv) (ccs : List String) (fs : FsState),
      runMain env ccs fs = runMain env (ccs.map upperStr) fs)
    ∧ (∀ (content : String) (ccs : List String),
        filtered_lines content (ccs.map upperStr)
          = filtered_lines content ((ccs.map upperStr).map upperStr)
        ∧ match_summary content (ccs.map upperStr)
          = match_summary content ((ccs.map upperStr).map upperStr))
    ∧ (∀ (codes : List String) (line cidr cc : String),
        splitWs line = [cidr, cc] →
        ((selected_record codes line).isSome ↔ cc ∈ codes)) := by
  refine ⟨?_, ?_, ?_⟩
  · intro env ccs fs
    unfold runMain
    rw [map_upperStr_idem]
  · intro content ccs
    rw [map_upperStr_idem]
    exact ⟨rfl, rfl⟩
  · intro codes line cidr cc hcols
    simp only [selected_record, hcols]
    by_cases h : cc ∈ codes
    · simp [any_eq_mem, h]
    · simp [any_eq_mem, h]

/-- Witness for C8: a lowercase caller list behaves as its upper-cased form
for the run, the filter output and the summary, and a two-column line is
selected exactly by membership. -/
theorem c8_uppercase_once_exact_match_witness :
    runMain ⟨500, "", ""⟩ ["dk"] ⟨none, none⟩
      = runMain ⟨500, "", ""⟩ (["dk"].map upperStr) ⟨none, none⟩
    ∧ (filtered_lines "10.0.0.0/8 DK" (["dk"].map upperStr)
        = filtered_lines "10.0.0.0/8 DK" ((["dk"].map upperStr).map upperStr)
      ∧ match_summary "10.0.0.0/8 DK" (["dk"].map upperStr)
        = match_summary "10.0.0.0/8 DK" ((["dk"].map upperStr).map upperStr))
    ∧ ((selected_record ["DK"] "10.0.0.0/8 DK").isSome ↔ "DK" ∈ ["DK"]) :=
  ⟨c8_uppercase_once_exact_match.1 ⟨500, "", ""⟩ ["dk"] ⟨none, none⟩,
   c8_uppercase_once_exact_match.2.1 "10.0.0.0/8 DK" ["dk"],
   c8_uppercase_once_exact_match.2.2 ["DK"] "10.0.0.0/8 DK" "10.0.0.0/8" "DK" (by decide)⟩

/-- C9: a digest-companion text with no whitespace-delimited token makes the
expected digest default to the empty string, which no 64-character SHA-256
hex rendering can equal, so a 200 response always fails verification and the
run aborts with the snapshot untouched. -/
theorem c9_blank_companion (env : FetchEnv) (ccs : List String) (fs : FsState)
    (h200 : env.status = 200) (hblank : splitWs env.shaText = []) :
    expected_hash env.shaText = "" ∧ runMain env ccs fs = (fs, false) := by
  have hexp : expected_hash env.shaText = "" := by
    unfold expected_hash
    rw [hblank]
    rfl
  refine ⟨hexp, ?_⟩
  apply runMain_of_resolve_none
  apply resolveContent_200_bad fs h200
  rw [hexp]
  exact sha256hex_ne_empty env.body

/-- Witness for C9: a whitespace-only companion text fails any 200 body. -/
theorem c9_blank_companion_witness :
    expected_hash "   " = ""
    ∧ runMain ⟨200, "feed data", "   "⟩ ["dk"] ⟨some "snap", some "out"⟩
      = (⟨some "snap", some "out"⟩, false) :=
  c9_blank_companion ⟨200, "feed data", "   "⟩ ["dk"] ⟨some "snap", some "out"⟩
    rfl (by decide)

/-- C10: selection is tested by membership, so any two caller lists with the
same members — in particular a list and its duplicate-free form — produce
the same filter output; duplicate caller codes never duplicate output
lines. -/
theorem c10_duplicate_codes (content : String) (codes1 codes2 : List String)
    (hmem : ∀ c, c ∈ codes1 ↔ c ∈ codes2) :
    filtered_lines content codes1 = filtered_lines content codes2
    ∧ filtered_lines content codes1 = filtered_lines content codes1.dedup := by
  have key : ∀ (cs1 cs2 : List String), (∀ c, c ∈ cs1 ↔ c ∈ cs2) →
      filtered_lines content cs1 = filtered_lines content cs2 := by
    intro cs1 cs2 hm
    unfold filtered_lines selected_records
    rw [funext (selected_record_mem_congr cs1 cs2 hm)]
  exact ⟨key codes1 codes2 hmem,
    key codes1 codes1.dedup (fun c => (List.mem_dedup).symm)⟩

/-- Witness for C10: a duplicated `DK` selects each record once. -/
theorem c10_duplicate_codes_witness :
    filtered_lines "10.0.0.0/8 DK\n203.0.113.0/24 DK" ["DK", "DK"]
      = filtered_lines "10.0.0.0/8 DK\n203.0.113.0/24 DK" ["DK"]
    ∧ filtered_lines "10.0.0.0/8 DK\n203.0.113.0/24 DK" ["DK", "DK"]
      = filtered_lines "10.0.0.0/8 DK\n203.0.113.0/24 DK" (["DK", "DK"].dedup) :=
  c10_duplicate_codes "10.0.0.0/8 DK\n203.0.113.0/24 DK" ["DK", "DK"] ["DK"]
    (fun c => by simp)

end GeoAcl
